import Mathlib

/-!
Shallow embedding of the BitVault security/integrity core
(src/backend/src/services/crypto.service.js: CryptoService, TransactionService,
WalletService; src/backend/src/models/Transaction.model.js: transactionSchema,
walletSchema).

Modelling conventions:
* SHA-256 keyed digests are modelled symbolically: a digest value records
  exactly the fields the source code serializes into the hash input, so digest
  equality coincides with equality of the hashed content.  This is the
  standard collision-free idealization of SHA-256; it is the property the
  tamper-detection design relies on.
* AES-256-GCM and ECDSA over secp256k1 are likewise idealized: a ciphertext
  or signature is a symbolic value recording the inputs that produced it,
  and decryption or verification succeeds exactly when the inputs match.
* Randomness (key scalars, IVs, transaction ids, block numbers) and clock
  reads are passed in explicitly as effect parameters, mirroring each draw
  the JavaScript code performs.
* The Mongo collections are a pair of Lean lists kept in insertion order;
  the code sorts by createdAt, which coincides with insertion order because
  every insertion uses the current clock.
* Storage writes are sequential awaits in the code with no transaction or
  rollback; the embedding threads the database state through each write and
  takes an oracle saying which writes succeed, so a failed write leaves all
  earlier writes applied, exactly as a thrown exception would in the source.
-/

deriving instance DecidableEq for Except

namespace BitVault

/-- JavaScript value domain for the nullable string fields that carry
integrity hashes (`integrityHash`, `previousTxHash`).  A digest constructor
records the exact content the source serializes into the SHA-256 input, so
equality of digests is equality of hashed content (collision-free
idealization). -/
inductive JsVal : Type where
  /-- JavaScript null. -/
  | null : JsVal
  /-- The empty string, the schema default for `integrityHash`. -/
  | emptyStr : JsVal
  /-- An arbitrary string that is not a digest produced by the system. -/
  | str : String → JsVal
  /-- Digest computed by `transactionSchema.methods.generateIntegrityHash`:
  SHA-256 over the JSON of (txId, type, amount, fee, fromAddress, toAddress,
  balanceAfter, previousTxHash, createdAt) concatenated with the secret. -/
  | txDigest : (txId ty : String) → (amount fee : Int) →
      (fromAddress toAddress : String) → (balanceAfter : Int) →
      (previousTxHash : JsVal) → (createdAt : Nat) → (secret : String) → JsVal
  /-- Digest computed by `walletSchema.methods.generateIntegrityHash`:
  SHA-256 over the JSON of (publicAddress, publicKey, balance, storageType,
  createdAt) concatenated with the secret. -/
  | walletDigest : (publicAddress publicKey : String) → (balance : Int) →
      (storageType : String) → (createdAt : Nat) → (secret : String) → JsVal
deriving DecidableEq, Repr

/-- Wallet storage type (`walletSchema.storageType`). -/
inductive StorageType : Type where
  | hot : StorageType
  | cold : StorageType
deriving DecidableEq, Repr

/-- String form used in the serialized hash payload. -/
def StorageType.toStr : StorageType → String
  | .hot => "hot"
  | .cold => "cold"

/-- Wallet status (`walletSchema.status`). -/
inductive WalletStatus : Type where
  | active : WalletStatus
  | frozen : WalletStatus
  | archived : WalletStatus
deriving DecidableEq, Repr

/-- Transaction type (`transactionSchema.type`). -/
inductive TxType : Type where
  | send : TxType
  | receive : TxType
  | internal : TxType
deriving DecidableEq, Repr

/-- String form used in the serialized hash payload. -/
def TxType.toStr : TxType → String
  | .send => "send"
  | .receive => "receive"
  | .internal => "internal"

/-- Transaction status (`transactionSchema.status`). -/
inductive TxStatus : Type where
  | pending : TxStatus
  | confirmed : TxStatus
  | failed : TxStatus
  | cancelled : TxStatus
deriving DecidableEq, Repr

/-! Idealized secp256k1 key derivation (CryptoService.deriveKeyPair via
ecpair/bitcoinjs-lib).  Derivation is a pure injective map from the private
key hex; the public key and address are symbolic tags of it. -/

/-- Compressed public key derived from a private key hex string. -/
def pubkeyOf (privateKeyHex : String) : String := "pub:" ++ privateKeyHex

/-- P2PKH address derived from a private key hex string
(bitcoin.payments.p2pkh over the derived public key). -/
def addressOf (privateKeyHex : String) : String := "addr:" ++ privateKeyHex

/-- WIF encoding of a private key (ECPair.toWIF), bijective with hex. -/
def wifOf (privateKeyHex : String) : String := "wif:" ++ privateKeyHex

/-- CryptoService.validateKeyPair: derives the address from the private key
and compares with the given address; false on any mismatch. -/
def validateKeyPair (privateKeyHex publicAddress : String) : Bool :=
  addressOf privateKeyHex == publicAddress

/-! Idealized AES-256-GCM (CryptoService.encryptPrivateKey /
decryptPrivateKey).  A ciphertext and auth tag record the plaintext, AES key
and IV that produced them; decryption succeeds exactly when key, IV and tag
all match. -/

/-- Symbolic AES-256-GCM ciphertext: records plaintext, AES key and IV. -/
inductive CtVal : Type where
  | mk : (plain aesKey iv : String) → CtVal
deriving DecidableEq, Repr

/-- Symbolic GCM authentication tag: records plaintext, AES key and IV. -/
inductive TagVal : Type where
  | mk : (plain aesKey iv : String) → TagVal
deriving DecidableEq, Repr

/-- CryptoService.getEncryptionKey: SHA-256 of the ENCRYPTION_KEY
environment variable, yielding the 32-byte AES key. -/
def kdf (encryptionKey : String) : String := "sha256:" ++ encryptionKey

/-- Result of CryptoService.encryptPrivateKey. -/
structure EncResult : Type where
  encryptedData : CtVal
  iv : String
  authTag : TagVal
deriving DecidableEq, Repr

/-- CryptoService.encryptPrivateKey: AES-256-GCM encryption of the private
key under the derived key, with the supplied fresh random IV. -/
def encryptPrivateKey (encryptionKey iv privateKey : String) : EncResult :=
  { encryptedData := CtVal.mk privateKey (kdf encryptionKey) iv
    iv := iv
    authTag := TagVal.mk privateKey (kdf encryptionKey) iv }

/-- CryptoService.decryptPrivateKey: AES-256-GCM decryption; returns the
plaintext when the key, IV and auth tag match the ciphertext, and the
decryption-failed error otherwise. -/
def decryptPrivateKey (encryptionKey : String) (encryptedData : CtVal)
    (ivHex : String) (authTag : TagVal) : Except String String :=
  match encryptedData, authTag with
  | CtVal.mk p k i, TagVal.mk tp tk ti =>
    if k = kdf encryptionKey ∧ i = ivHex ∧ tp = p ∧ tk = k ∧ ti = i then
      Except.ok p
    else
      Except.error "Decryption failed"

/-! Idealized ECDSA signing (CryptoService.signTransaction /
verifySignature).  A signature records the signing key and the payload whose
SHA-256 hash was signed; verification succeeds exactly for the matching
public key and payload. -/

/-- Canonical transaction payload assembled by
TransactionService.createTransaction before signing. -/
structure TxData : Type where
  txId : String
  fromAddress : String
  toAddress : String
  amount : Int
  fee : Int
  timestamp : Nat
  previousTxHash : JsVal
deriving DecidableEq, Repr

/-- Symbolic ECDSA signature over the SHA-256 hash of a payload. -/
inductive SigVal : Type where
  | mk : (privateKeyHex : String) → (payload : TxData) → SigVal
deriving DecidableEq, Repr

/-- Result of CryptoService.signTransaction. -/
structure SignResult : Type where
  signature : SigVal
  txHash : TxData
  publicKey : String
deriving DecidableEq, Repr

/-- CryptoService.signTransaction: hashes the payload and signs the hash
with the supplied private key. -/
def signTransaction (privateKeyHex : String) (transactionData : TxData) :
    SignResult :=
  { signature := SigVal.mk privateKeyHex transactionData
    txHash := transactionData
    publicKey := pubkeyOf privateKeyHex }

/-- CryptoService.verifySignature: recomputes the payload hash and checks
the signature against the public key; false on any mismatch. -/
def verifySignature (publicKeyHex : String) (signature : SigVal)
    (transactionData : TxData) : Bool :=
  match signature with
  | SigVal.mk priv payload =>
    (pubkeyOf priv == publicKeyHex) && (payload == transactionData)

/-! Configuration (process environment). -/

/-- Process-wide configuration: the ENCRYPTION_KEY and optional
INTEGRITY_SECRET environment variables, and the bitcoin address validity
check (CryptoService.validateAddress via bitcoin.address.toOutputScript),
abstracted as a boolean predicate on strings. -/
structure Env : Type where
  encryptionKey : String
  integritySecret : Option String
  addrValid : String → Bool

/-- Secret used by the wallet integrity hash:
INTEGRITY_SECRET falling back to ENCRYPTION_KEY. -/
def walletSecret (env : Env) : String :=
  env.integritySecret.getD env.encryptionKey

/-! Persisted records. -/

/-- Encryption metadata persisted alongside a hot wallet
(`walletSchema.encryptionMeta`). -/
structure EncryptionMeta : Type where
  iv : String
  authTag : TagVal
  algorithm : String
deriving DecidableEq, Repr

/-- Persisted wallet record (walletSchema fields used by the core). -/
structure Wallet : Type where
  id : Nat
  user : Nat
  publicAddress : String
  publicKey : String
  storageType : StorageType
  encryptedPrivateKey : Option CtVal
  encryptionMeta : Option EncryptionMeta
  balance : Int
  status : WalletStatus
  transactionCount : Nat
  lastActivity : Nat
  integrityHash : JsVal
  createdAt : Nat
deriving DecidableEq, Repr

/-- walletSchema.methods.generateIntegrityHash: keyed SHA-256 over the
serialized (publicAddress, publicKey, balance, storageType, createdAt). -/
def Wallet.generateIntegrityHash (env : Env) (w : Wallet) : JsVal :=
  JsVal.walletDigest w.publicAddress w.publicKey w.balance
    w.storageType.toStr w.createdAt (walletSecret env)

/-- walletSchema.methods.verifyIntegrity: recompute and compare with the
stored hash. -/
def Wallet.verifyIntegrity (env : Env) (w : Wallet) : Bool :=
  w.integrityHash == w.generateIntegrityHash env

/-- Persisted transaction record (transactionSchema fields used by the
core). -/
structure Transaction : Type where
  wallet : Nat
  user : Nat
  txId : String
  ty : TxType
  status : TxStatus
  amount : Int
  fee : Int
  fromAddress : String
  toAddress : String
  balanceAfter : Int
  confirmations : Nat
  blockNumber : Option Nat
  blockHash : Option String
  memo : String
  signingMethod : StorageType
  signature : Option SigVal
  previousTxHash : JsVal
  integrityHash : JsVal
  createdAt : Nat
  confirmedAt : Option Nat
deriving DecidableEq, Repr

/-- transactionSchema.methods.generateIntegrityHash: keyed SHA-256 over the
serialized (txId, type, amount, fee, fromAddress, toAddress, balanceAfter,
previousTxHash, createdAt). -/
def Transaction.generateIntegrityHash (env : Env) (t : Transaction) : JsVal :=
  JsVal.txDigest t.txId t.ty.toStr t.amount t.fee t.fromAddress t.toAddress
    t.balanceAfter t.previousTxHash t.createdAt env.encryptionKey

/-- transactionSchema.methods.verifyIntegrity: recompute and compare with
the stored hash. -/
def Transaction.verifyIntegrity (env : Env) (t : Transaction) : Bool :=
  t.integrityHash == t.generateIntegrityHash env

/-! TransactionService.verifyTransactionChain. -/

/-- One per-transaction entry of the chain verification report. -/
structure ChainEntry : Type where
  txId : String
  integrityValid : Bool
  chainLinkValid : Bool
  createdAt : Nat
deriving DecidableEq, Repr

/-- Report returned by TransactionService.verifyTransactionChain. -/
structure ChainReport : Type where
  totalTransactions : Nat
  chainValid : Bool
  results : List ChainEntry
deriving DecidableEq, Repr

/-- Loop body of verifyTransactionChain: `previousHash` starts at null and
is replaced after each entry by the stored integrityHash of that entry;
chainLinkValid is vacuously true while previousHash is null. -/
def verifyChainAux (env : Env) : JsVal → Bool → List Transaction →
    List ChainEntry × Bool
  | _, chainValid, [] => ([], chainValid)
  | previousHash, chainValid, tx :: rest =>
    let integrityValid := tx.verifyIntegrity env
    let chainLinkValid :=
      (previousHash == JsVal.null) || (tx.previousTxHash == previousHash)
    let chainValid' :=
      if !integrityValid || !chainLinkValid then false else chainValid
    let next := verifyChainAux env tx.integrityHash chainValid' rest
    (⟨tx.txId, integrityValid, chainLinkValid, tx.createdAt⟩ :: next.1, next.2)

/-- TransactionService.verifyTransactionChain applied to the transactions of
one wallet in creation order. -/
def verifyTransactionChain (env : Env) (txs : List Transaction) : ChainReport :=
  let r := verifyChainAux env JsVal.null true txs
  { totalTransactions := txs.length, chainValid := r.2, results := r.1 }

/-! Storage layer: the two Mongo collections as lists in insertion order. -/

/-- Persistent state: the wallets and transactions collections. -/
structure Db : Type where
  wallets : List Wallet
  txs : List Transaction
deriving DecidableEq, Repr

/-- Wallet.findOne({_id, user, status: active}) in createTransaction. -/
def findActiveWallet (db : Db) (walletId userId : Nat) : Option Wallet :=
  db.wallets.find? fun w =>
    w.id == walletId && w.user == userId && w.status == WalletStatus.active

/-- WalletService.getWalletByAddress: Wallet.findOne({publicAddress}). -/
def getWalletByAddress (db : Db) (address : String) : Option Wallet :=
  db.wallets.find? fun w => w.publicAddress == address

/-- Lookup of a wallet by id alone (Wallet.findById). -/
def findWalletById (db : Db) (walletId : Nat) : Option Wallet :=
  db.wallets.find? fun w => w.id == walletId

/-- Balance of the wallet with the given id, when present. -/
def walletBalance (db : Db) (walletId : Nat) : Option Int :=
  (findWalletById db walletId).map Wallet.balance

/-- transactionSchema.statics.generateChainHash: the stored integrityHash of
the most recent transaction of the wallet, or null when it has none. -/
def generateChainHash (db : Db) (walletId : Nat) : JsVal :=
  match (db.txs.filter fun t => t.wallet == walletId).getLast? with
  | some t => t.integrityHash
  | none => JsVal.null

/-- Saved form of a wallet after the balance mutation in
WalletService.updateBalance: balance changed, transactionCount and
lastActivity bumped, and the integrityHash recomputed by the pre-save hook
because balance was modified. -/
def applyBalanceOp (env : Env) (w : Wallet) (amount : Int) (subtract : Bool)
    (now : Nat) : Wallet :=
  let w1 : Wallet :=
    { w with
      balance := if subtract then w.balance - amount else w.balance + amount
      lastActivity := now
      transactionCount := w.transactionCount + 1 }
  { w1 with integrityHash := w1.generateIntegrityHash env }

/-- WalletService.updateBalance: refetches the wallet by id, applies the
subtract/add operation with a redundant balance check on subtract, and
saves the mutated wallet. -/
def updateBalance (env : Env) (db : Db) (walletId : Nat) (amount : Int)
    (subtract : Bool) (now : Nat) : Except String Db :=
  match findWalletById db walletId with
  | none => Except.error "Wallet not found"
  | some w =>
    if subtract && decide (w.balance < amount) then
      Except.error "Insufficient balance"
    else
      Except.ok
        { db with
          wallets := db.wallets.map fun x =>
            if x.id == walletId then applyBalanceOp env w amount subtract now
            else x }

/-! TransactionService.createTransaction. -/

/-- Caller-supplied parameters of createTransaction. -/
structure SendParams : Type where
  userId : Nat
  walletId : Nat
  toAddress : String
  amount : Int
  memo : String
  privateKey : Option String
deriving DecidableEq, Repr

/-- Effect parameters consumed during one createTransaction call: the random
transaction id draw (Transaction.generateTxId), the clock, and the simulated
block data draws. -/
structure SendEffects : Type where
  txId : String
  now : Nat
  blockNumber : Nat
  blockHash : String
deriving DecidableEq, Repr

/-- Value returned by a successful createTransaction. -/
structure SendResult : Type where
  transaction : Transaction
  newBalance : Int
deriving DecidableEq, Repr

/-- Key acquisition step of createTransaction: hot wallets decrypt the
stored ciphertext, cold wallets validate the caller-supplied key against the
wallet address. -/
def signingKeyOf (env : Env) (senderWallet : Wallet)
    (privateKey : Option String) : Except String String :=
  match senderWallet.storageType with
  | StorageType.hot =>
    match senderWallet.encryptedPrivateKey, senderWallet.encryptionMeta with
    | some c, some m => decryptPrivateKey env.encryptionKey c m.iv m.authTag
    | _, _ => Except.error "Decryption failed"
  | StorageType.cold =>
    match privateKey with
    | none => Except.error "Private key required for cold wallet transaction"
    | some pk =>
      if validateKeyPair pk senderWallet.publicAddress then Except.ok pk
      else Except.error "Invalid private key for this wallet"

/-- The send record written by createTransaction, with its integrityHash
filled in by the pre-save hook. -/
def sendTxOf (env : Env) (db : Db) (p : SendParams) (eff : SendEffects)
    (senderWallet : Wallet) (signingKey : String) : Transaction :=
  let previousTxHash := generateChainHash db p.walletId
  let transactionData : TxData :=
    { txId := eff.txId
      fromAddress := senderWallet.publicAddress
      toAddress := p.toAddress
      amount := p.amount
      fee := 10000
      timestamp := eff.now
      previousTxHash := previousTxHash }
  let signatureResult := signTransaction signingKey transactionData
  let t0 : Transaction :=
    { wallet := p.walletId
      user := p.userId
      txId := eff.txId
      ty := TxType.send
      status := TxStatus.confirmed
      amount := p.amount
      fee := 10000
      fromAddress := senderWallet.publicAddress
      toAddress := p.toAddress
      balanceAfter := senderWallet.balance - (p.amount + 10000)
      confirmations := 6
      blockNumber := some eff.blockNumber
      blockHash := some eff.blockHash
      memo := p.memo
      signingMethod := senderWallet.storageType
      signature := some signatureResult.signature
      previousTxHash := previousTxHash
      integrityHash := JsVal.emptyStr
      createdAt := eff.now
      confirmedAt := some eff.now }
  { t0 with integrityHash := t0.generateIntegrityHash env }

/-- The mirrored receive record written for a recipient wallet known to the
system, with its integrityHash filled in by the pre-save hook; its id is the
send id with a receive suffix and its chain hash is taken on the recipient
wallet after the send record was written. -/
def recvTxOf (env : Env) (db1 : Db) (p : SendParams) (eff : SendEffects)
    (senderWallet recipientWallet : Wallet) : Transaction :=
  let t0 : Transaction :=
    { wallet := recipientWallet.id
      user := recipientWallet.user
      txId := eff.txId ++ "-receive"
      ty := TxType.receive
      status := TxStatus.confirmed
      amount := p.amount
      fee := 0
      fromAddress := senderWallet.publicAddress
      toAddress := p.toAddress
      balanceAfter := recipientWallet.balance + p.amount
      confirmations := 6
      blockNumber := some eff.blockNumber
      blockHash := some eff.blockHash
      memo := "Received from " ++ senderWallet.publicAddress.take 8 ++ "..."
      signingMethod := senderWallet.storageType
      signature := none
      previousTxHash := generateChainHash db1 recipientWallet.id
      integrityHash := JsVal.emptyStr
      createdAt := eff.now
      confirmedAt := some eff.now }
  { t0 with integrityHash := t0.generateIntegrityHash env }

/-- TransactionService.createTransaction.  The writeOk oracle models the
outcome of each of the four storage writes (0: send record create, 1: sender
debit save, 2: receive record create, 3: recipient credit save); a failed
write surfaces as a StorageFailure while every earlier write stays applied,
exactly as a thrown await does in the source, which uses no transaction or
rollback.  The result pairs the returned value with the database state after
the call. -/
def createTransaction (env : Env) (writeOk : Nat → Bool) (db : Db)
    (p : SendParams) (eff : SendEffects) : Except String SendResult × Db :=
  match findActiveWallet db p.walletId p.userId with
  | none => (Except.error "Sender wallet not found", db)
  | some senderWallet =>
    if !env.addrValid p.toAddress then
      (Except.error "Invalid recipient address", db)
    else if senderWallet.publicAddress == p.toAddress then
      (Except.error "Cannot send to the same address", db)
    else if senderWallet.balance < p.amount + 10000 then
      (Except.error "Insufficient balance", db)
    else
      match signingKeyOf env senderWallet p.privateKey with
      | Except.error e => (Except.error e, db)
      | Except.ok signingKey =>
        if !writeOk 0 then (Except.error "StorageFailure", db)
        else if p.amount < 1 then
          (Except.error "Transaction validation failed: amount", db)
        else
          let sendTx := sendTxOf env db p eff senderWallet signingKey
          let db1 : Db := { db with txs := db.txs ++ [sendTx] }
          if !writeOk 1 then (Except.error "StorageFailure", db1)
          else
            match updateBalance env db1 p.walletId (p.amount + 10000) true
                eff.now with
            | Except.error e => (Except.error e, db1)
            | Except.ok db2 =>
              match getWalletByAddress db2 p.toAddress with
              | none =>
                (Except.ok
                  { transaction := sendTx
                    newBalance := senderWallet.balance - (p.amount + 10000) },
                 db2)
              | some recipientWallet =>
                if !writeOk 2 then (Except.error "StorageFailure", db2)
                else
                  let recvTx := recvTxOf env db2 p eff senderWallet
                    recipientWallet
                  let db3 : Db := { db2 with txs := db2.txs ++ [recvTx] }
                  if !writeOk 3 then (Except.error "StorageFailure", db3)
                  else
                    match updateBalance env db3 recipientWallet.id p.amount
                        false eff.now with
                    | Except.error e => (Except.error e, db3)
                    | Except.ok db4 =>
                      (Except.ok
                        { transaction := sendTx
                          newBalance :=
                            senderWallet.balance - (p.amount + 10000) },
                       db4)

/-! WalletService.createWallet. -/

/-- Effect parameters consumed by one createWallet call: the random private
key scalar drawn by ECPair.makeRandom, the random encryption IV, the new
record id and the clock. -/
structure CreateWalletEffects : Type where
  privateKey : String
  iv : String
  newId : Nat
  now : Nat
deriving DecidableEq, Repr

/-- Response of WalletService.createWallet: the persisted wallet record,
plus the private key material returned once for cold wallets only. -/
structure CreateWalletResult : Type where
  wallet : Wallet
  privateKey : Option String
  privateKeyWIF : Option String
deriving DecidableEq, Repr

/-- WalletService.createWallet: generates a key pair, encrypts and stores
the private key for hot wallets only, persists the wallet with the demo
balance, and returns the private key material only for cold wallets. -/
def createWallet (env : Env) (eff : CreateWalletEffects) (userId : Nat)
    (storageType : StorageType) : CreateWalletResult :=
  let address := addressOf eff.privateKey
  let publicKey := pubkeyOf eff.privateKey
  let encrypted := encryptPrivateKey env.encryptionKey eff.iv eff.privateKey
  let w0 : Wallet :=
    { id := eff.newId
      user := userId
      publicAddress := address
      publicKey := publicKey
      storageType := storageType
      encryptedPrivateKey :=
        if storageType == StorageType.hot then some encrypted.encryptedData
        else none
      encryptionMeta :=
        if storageType == StorageType.hot then
          some { iv := encrypted.iv, authTag := encrypted.authTag
                 algorithm := "aes-256-gcm" }
        else none
      balance := 100000000
      status := WalletStatus.active
      transactionCount := 0
      lastActivity := eff.now
      integrityHash := JsVal.emptyStr
      createdAt := eff.now }
  let w : Wallet := { w0 with integrityHash := w0.generateIntegrityHash env }
  { wallet := w
    privateKey :=
      if storageType == StorageType.cold then some eff.privateKey else none
    privateKeyWIF :=
      if storageType == StorageType.cold then some (wifOf eff.privateKey)
      else none }

/-! Chain-shape predicates and structural lemmas about
verifyTransactionChain. -/

/-- Running value of the previousHash loop variable after traversing a list
of transactions: the stored integrityHash of the last one, or the incoming
value for an empty list. -/
def chainTipHash (prev : JsVal) : List Transaction → JsVal
  | [] => prev
  | tx :: rest => chainTipHash tx.integrityHash rest

/-- A transaction list is well chained from a given predecessor hash when
each entry links to the stored hash of its predecessor and carries a correct
integrity hash.  This is the state produced by successive sends on one
wallet. -/
def wellChainedFrom (env : Env) (prev : JsVal) : List Transaction → Bool
  | [] => true
  | tx :: rest =>
    (tx.previousTxHash == prev) &&
      (tx.integrityHash == tx.generateIntegrityHash env) &&
      wellChainedFrom env tx.integrityHash rest

/-- Report entry of a fully valid transaction. -/
def okEntry (t : Transaction) : ChainEntry :=
  { txId := t.txId, integrityValid := true, chainLinkValid := true
    createdAt := t.createdAt }

/-! Concrete scenario data used by witnesses and counterexamples. -/

/-- Concrete configuration: ENCRYPTION_KEY is ek, no INTEGRITY_SECRET, and
every address passes the format check. -/
def cEnv : Env :=
  { encryptionKey := "ek", integritySecret := none, addrValid := fun _ => true }

/-- Concrete hot wallet before its pre-save hook runs. -/
def cWallet0 : Wallet :=
  { id := 1
    user := 7
    publicAddress := addressOf "k0"
    publicKey := pubkeyOf "k0"
    storageType := StorageType.hot
    encryptedPrivateKey := some (CtVal.mk "k0" (kdf "ek") "iv0")
    encryptionMeta :=
      some { iv := "iv0", authTag := TagVal.mk "k0" (kdf "ek") "iv0"
             algorithm := "aes-256-gcm" }
    balance := 100000000
    status := WalletStatus.active
    transactionCount := 0
    lastActivity := 0
    integrityHash := JsVal.emptyStr
    createdAt := 0 }

/-- Concrete hot wallet with a valid stored integrity hash. -/
def cWallet : Wallet :=
  { cWallet0 with integrityHash := cWallet0.generateIntegrityHash cEnv }

/-- Template transaction for the concrete chain scenarios. -/
def cTxBase : Transaction :=
  { wallet := 1
    user := 7
    txId := "t0"
    ty := TxType.send
    status := TxStatus.confirmed
    amount := 50000
    fee := 10000
    fromAddress := addressOf "k0"
    toAddress := "addr:other"
    balanceAfter := 99940000
    confirmations := 6
    blockNumber := some 800001
    blockHash := some "bh"
    memo := ""
    signingMethod := StorageType.hot
    signature := none
    previousTxHash := JsVal.null
    integrityHash := JsVal.emptyStr
    createdAt := 10
    confirmedAt := some 10 }

/-- First transaction of the concrete chain, with its hash set by the
pre-save hook. -/
def cT0 : Transaction :=
  { cTxBase with integrityHash := cTxBase.generateIntegrityHash cEnv }

/-- Second transaction of the concrete chain, linked to the first. -/
def cT1 : Transaction :=
  let t0 : Transaction :=
    { cTxBase with
      txId := "t1", balanceAfter := 99880000
      previousTxHash := cT0.integrityHash, createdAt := 20
      confirmedAt := some 20 }
  { t0 with integrityHash := t0.generateIntegrityHash cEnv }

/-- Third transaction of the concrete chain, linked to the second. -/
def cT2 : Transaction :=
  let t0 : Transaction :=
    { cTxBase with
      txId := "t2", balanceAfter := 99820000
      previousTxHash := cT1.integrityHash, createdAt := 30
      confirmedAt := some 30 }
  { t0 with integrityHash := t0.generateIntegrityHash cEnv }

/-- Tampered transaction spliced into the chain at position 1: its
previousTxHash does not match the stored hash of cT0, while its own
integrityHash is internally consistent. -/
def cSplice : Transaction :=
  let t0 : Transaction :=
    { cTxBase with
      txId := "s", balanceAfter := 12345
      previousTxHash := JsVal.str "bogus", createdAt := 15
      confirmedAt := some 15 }
  { t0 with integrityHash := t0.generateIntegrityHash cEnv }

/-- The untampered three-transaction chain of wallet 1. -/
def cChain : List Transaction := [cT0, cT1, cT2]

/-- The chain with cSplice inserted at position 1. -/
def cSpliced : List Transaction := [cT0, cSplice, cT1, cT2]

/-- Lowercase hexadecimal character test. -/
def isHexChar (c : Char) : Bool :=
  c.isDigit || (decide ('a' ≤ c) && decide (c ≤ 'f'))

/-- Recognizer of the 64-character lowercase hex strings produced by
Transaction.generateTxId, i.e. hex encodings of 256-bit values. -/
def isHex64 (s : String) : Bool :=
  (s.length == 64) && s.toList.all isHexChar

/-- Concrete recipient wallet (cold, so nothing encrypted is stored). -/
def cRecipient : Wallet :=
  let w0 : Wallet :=
    { id := 2
      user := 9
      publicAddress := addressOf "k1"
      publicKey := pubkeyOf "k1"
      storageType := StorageType.cold
      encryptedPrivateKey := none
      encryptionMeta := none
      balance := 100000000
      status := WalletStatus.active
      transactionCount := 0
      lastActivity := 0
      integrityHash := JsVal.emptyStr
      createdAt := 0 }
  { w0 with integrityHash := w0.generateIntegrityHash cEnv }

/-- Concrete database: the hot sender wallet and the cold recipient
wallet, with no transactions yet. -/
def cDb : Db := { wallets := [cWallet, cRecipient], txs := [] }

/-- Concrete send parameters: wallet 1 sends 50000 satoshis to the address
of wallet 2. -/
def cParams : SendParams :=
  { userId := 7
    walletId := 1
    toAddress := addressOf "k1"
    amount := 50000
    memo := ""
    privateKey := none }

/-- Concrete 64-character hex transaction id draw. -/
def cTxId64 : String :=
  "aaaaaaaaaaaaaaaaaaaaaaaaaaaaaaaaaaaaaaaaaaaaaaaaaaaaaaaaaaaaaaaa"

/-- Concrete effect draws for the send call. -/
def cEff : SendEffects :=
  { txId := cTxId64, now := 100, blockNumber := 800123, blockHash := "bh1" }

/-- Concrete cold wallet owned by user 7, for the wrong-key scenario. -/
def cColdWallet : Wallet :=
  let w0 : Wallet :=
    { id := 3
      user := 7
      publicAddress := addressOf "k2"
      publicKey := pubkeyOf "k2"
      storageType := StorageType.cold
      encryptedPrivateKey := none
      encryptionMeta := none
      balance := 100000000
      status := WalletStatus.active
      transactionCount := 0
      lastActivity := 0
      integrityHash := JsVal.emptyStr
      createdAt := 0 }
  { w0 with integrityHash := w0.generateIntegrityHash cEnv }

/-- Concrete database holding only the cold wallet. -/
def cDbCold : Db := { wallets := [cColdWallet], txs := [] }

/-- Concrete send attempt from the cold wallet with a wrong private key. -/
def cParamsCold : SendParams :=
  { userId := 7
    walletId := 3
    toAddress := "addr:other"
    amount := 50000
    memo := ""
    privateKey := some "wrongkey" }

theorem verifyChainAux_of_wellChained (env : Env) :
    ∀ (txs : List Transaction) (prev : JsVal) (v : Bool),
      wellChainedFrom env prev txs = true →
      verifyChainAux env prev v txs = (txs.map okEntry, v) := by
  intro txs
  induction txs with
  | nil => intro prev v _; rfl
  | cons tx rest ih =>
    intro prev v hwell
    simp only [wellChainedFrom, Bool.and_eq_true, beq_iff_eq] at hwell
    obtain ⟨⟨hlink, hhash⟩, hrest⟩ := hwell
    rw [hhash] at hrest
    simp [verifyChainAux, Transaction.verifyIntegrity, hlink, hhash, ih,
      hrest, okEntry]

theorem verifyChainAux_append (env : Env) :
    ∀ (xs ys : List Transaction) (prev : JsVal) (v : Bool),
      verifyChainAux env prev v (xs ++ ys) =
        ((verifyChainAux env prev v xs).1 ++
            (verifyChainAux env (chainTipHash prev xs)
              (verifyChainAux env prev v xs).2 ys).1,
          (verifyChainAux env (chainTipHash prev xs)
            (verifyChainAux env prev v xs).2 ys).2) := by
  intro xs
  induction xs with
  | nil => intro ys prev v; simp [verifyChainAux, chainTipHash]
  | cons tx rest ih =>
    intro ys prev v
    simp [verifyChainAux, chainTipHash, ih]

theorem wellChainedFrom_append (env : Env) :
    ∀ (xs ys : List Transaction) (prev : JsVal),
      wellChainedFrom env prev (xs ++ ys) =
        (wellChainedFrom env prev xs &&
          wellChainedFrom env (chainTipHash prev xs) ys) := by
  intro xs
  induction xs with
  | nil => intro ys prev; simp [wellChainedFrom, chainTipHash]
  | cons tx rest ih =>
    intro ys prev
    simp [wellChainedFrom, chainTipHash, ih, Bool.and_assoc]

theorem generateIntegrityHash_ne_null (env : Env) (t : Transaction) :
    t.generateIntegrityHash env ≠ JsVal.null := by
  simp [Transaction.generateIntegrityHash]

theorem chainTipHash_of_wellChained (env : Env) :
    ∀ (txs : List Transaction) (prev : JsVal),
      txs ≠ [] → wellChainedFrom env prev txs = true →
      ∃ t : Transaction, chainTipHash prev txs = t.generateIntegrityHash env := by
  intro txs
  induction txs with
  | nil => intro prev h; exact absurd rfl h
  | cons tx rest ih =>
    intro prev _ hwell
    simp only [wellChainedFrom, Bool.and_eq_true, beq_iff_eq] at hwell
    obtain ⟨⟨_, hhash⟩, hrest⟩ := hwell
    cases rest with
    | nil => exact ⟨tx, by simpa [chainTipHash] using hhash⟩
    | cons y ys =>
      exact ih tx.integrityHash (by simp) hrest

/-- C2 (amended).  Untampered half: a well-chained transaction list is
reported with every entry individually valid and the chain overall valid.
Splice half: inserting a transaction s with an incorrect previousTxHash at
an interior position k of a well-chained list (with k at least 1, a stored
integrityHash on s that is a string and differs from the link the entry at
position k expects) makes verifyChain report the entries at positions k and
k+1 as chain-invalid and the chain overall invalid, while every entry at
any other position stays fully valid: the verifier links each entry against
the stored hash of its immediate predecessor, so the damage does not extend
past position k+1. -/
theorem verify_chain_report (env : Env) (txs pre suf : List Transaction)
    (tk s : Transaction) :
    (wellChainedFrom env JsVal.null txs = true →
      verifyTransactionChain env txs =
        { totalTransactions := txs.length, chainValid := true
          results := txs.map okEntry }) ∧
    (wellChainedFrom env JsVal.null (pre ++ tk :: suf) = true →
      pre ≠ [] →
      s.previousTxHash ≠ chainTipHash JsVal.null pre →
      tk.previousTxHash ≠ s.integrityHash →
      s.integrityHash ≠ JsVal.null →
      verifyTransactionChain env (pre ++ s :: tk :: suf) =
        { totalTransactions := pre.length + suf.length + 2
          chainValid := false
          results := pre.map okEntry ++
            { txId := s.txId, integrityValid := s.verifyIntegrity env
              chainLinkValid := false, createdAt := s.createdAt } ::
            { txId := tk.txId, integrityValid := true, chainLinkValid := false
              createdAt := tk.createdAt } ::
            suf.map okEntry }) := by
  constructor
  · intro hwell
    simp [verifyTransactionChain,
      verifyChainAux_of_wellChained env txs JsVal.null true hwell]
  · intro hwell hpre hs1 hs2 hs3
    rw [wellChainedFrom_append] at hwell
    simp only [Bool.and_eq_true] at hwell
    obtain ⟨hwpre, hwrest⟩ := hwell
    simp only [wellChainedFrom, Bool.and_eq_true, beq_iff_eq] at hwrest
    obtain ⟨⟨htklink, htkhash⟩, hwsuf⟩ := hwrest
    obtain ⟨t, htip⟩ :=
      chainTipHash_of_wellChained env pre JsVal.null hpre hwpre
    have h1 : (chainTipHash JsVal.null pre == JsVal.null) = false := by
      rw [htip]
      simp [generateIntegrityHash_ne_null env t]
    have h2 : (s.previousTxHash == chainTipHash JsVal.null pre) = false := by
      simp [hs1]
    have h3 : (s.integrityHash == JsVal.null) = false := by simp [hs3]
    have h4 : (tk.previousTxHash == s.integrityHash) = false := by simp [hs2]
    have h5 : tk.verifyIntegrity env = true := by
      simp [Transaction.verifyIntegrity, htkhash]
    unfold verifyTransactionChain
    rw [verifyChainAux_append]
    rw [verifyChainAux_of_wellChained env pre JsVal.null true hwpre]
    simp only [verifyChainAux, h1, h2, h3, h4, h5]
    rw [verifyChainAux_of_wellChained env suf tk.integrityHash _ hwsuf]
    simp [List.length_append]
    omega

/-- C2 counterexample.  Splicing cSplice with an incorrect previousTxHash
into the valid chain at position k = 1 leaves the entry at position 3 fully
valid (both integrityValid and chainLinkValid), refuting the claim that
every entry at a position at or after k is marked chain-invalid; only the
entries at positions 1 and 2 lose their chain link, and the chain overall is
reported invalid. -/
theorem chain_splice_counterexample :
    ((verifyTransactionChain cEnv cSpliced).results.map fun e =>
        (e.integrityValid, e.chainLinkValid)) =
      [(true, true), (true, false), (true, false), (true, true)] ∧
      (verifyTransactionChain cEnv cSpliced).chainValid = false := by
  decide

/-- C2 witness: the amended report theorem applied to the concrete
three-transaction chain and to the concrete splice at position 1. -/
theorem verify_chain_report_witness :
    (verifyTransactionChain cEnv cChain =
      { totalTransactions := cChain.length, chainValid := true
        results := cChain.map okEntry }) ∧
      (verifyTransactionChain cEnv ([cT0] ++ cSplice :: cT1 :: [cT2]) =
        { totalTransactions := [cT0].length + [cT2].length + 2
          chainValid := false
          results := [cT0].map okEntry ++
            { txId := cSplice.txId
              integrityValid := cSplice.verifyIntegrity cEnv
              chainLinkValid := false, createdAt := cSplice.createdAt } ::
            { txId := cT1.txId, integrityValid := true, chainLinkValid := false
              createdAt := cT1.createdAt } ::
            [cT2].map okEntry }) :=
  ⟨(verify_chain_report cEnv cChain [cT0] [cT2] cT1 cSplice).1 (by decide),
   (verify_chain_report cEnv cChain [cT0] [cT2] cT1 cSplice).2 (by decide)
     (by decide) (by decide) (by decide) (by decide)⟩

/-- C1.  For every wallet whose stored integrityHash verifies, changing the
balance to any different value makes verifyIntegrity return false, and
restoring the original balance makes it return true again. -/
theorem wallet_balance_tamper_detection (env : Env) (w : Wallet) (b : Int)
    (hvalid : w.verifyIntegrity env = true) (hne : b ≠ w.balance) :
    ({ w with balance := b } : Wallet).verifyIntegrity env = false ∧
      ({ { w with balance := b } with balance := w.balance } :
        Wallet).verifyIntegrity env = true := by
  refine ⟨?_, hvalid⟩
  simp only [Wallet.verifyIntegrity, Wallet.generateIntegrityHash,
    beq_iff_eq] at hvalid ⊢
  simp only [hvalid]
  simp
  intro h
  exact hne h.symm

/-- C1 witness: the concrete hot wallet verifies, any other balance breaks
verification, and restoring the balance repairs it. -/
theorem wallet_balance_tamper_detection_witness :
    cWallet.verifyIntegrity cEnv = true ∧ (5 : Int) ≠ cWallet.balance ∧
      ({ cWallet with balance := 5 } : Wallet).verifyIntegrity cEnv = false ∧
      ({ { cWallet with balance := 5 } with balance := cWallet.balance } :
        Wallet).verifyIntegrity cEnv = true :=
  ⟨by decide, by decide,
    (wallet_balance_tamper_detection cEnv cWallet 5 (by decide) (by decide)).1,
    (wallet_balance_tamper_detection cEnv cWallet 5 (by decide) (by decide)).2⟩

/-- C6.  A wallet record produced by createWallet carries the encrypted
private key and its encryption metadata exactly when the storage type is
hot; a cold wallet persists neither, and the raw private key is returned in
the creation response only for cold wallets. -/
theorem wallet_creation_key_storage (env : Env) (eff : CreateWalletEffects)
    (userId : Nat) (st : StorageType) :
    ((createWallet env eff userId st).wallet.encryptedPrivateKey.isSome =
        (st == StorageType.hot)) ∧
      ((createWallet env eff userId st).wallet.encryptionMeta.isSome =
        (st == StorageType.hot)) ∧
      ((createWallet env eff userId st).privateKey =
        if st == StorageType.cold then some eff.privateKey else none) := by
  cases st <;> simp [createWallet]

/-- C7.  Decrypting the output of encryptPrivateKey returns the original
private key, for every key and every IV the encryption step may draw. -/
theorem encrypt_decrypt_roundtrip (encryptionKey iv k : String) :
    decryptPrivateKey encryptionKey
      (encryptPrivateKey encryptionKey iv k).encryptedData
      (encryptPrivateKey encryptionKey iv k).iv
      (encryptPrivateKey encryptionKey iv k).authTag = Except.ok k := by
  simp [encryptPrivateKey, decryptPrivateKey]

/-- C8.  A signature produced by signTransaction verifies under
verifySignature with the public key corresponding to the signing key (which
is also the public key signTransaction returns) and the same payload. -/
theorem sign_verify_roundtrip (privateKeyHex : String) (d : TxData) :
    (signTransaction privateKeyHex d).publicKey = pubkeyOf privateKeyHex ∧
      verifySignature (pubkeyOf privateKeyHex)
        (signTransaction privateKeyHex d).signature d = true := by
  simp [verifySignature, signTransaction]

theorem applyBalanceOp_id (env : Env) (w : Wallet) (amount : Int)
    (subtract : Bool) (now : Nat) :
    (applyBalanceOp env w amount subtract now).id = w.id := rfl

theorem applyBalanceOp_publicAddress (env : Env) (w : Wallet) (amount : Int)
    (subtract : Bool) (now : Nat) :
    (applyBalanceOp env w amount subtract now).publicAddress =
      w.publicAddress := rfl

theorem applyBalanceOp_balance_sub (env : Env) (w : Wallet) (amount : Int)
    (now : Nat) :
    (applyBalanceOp env w amount true now).balance = w.balance - amount := rfl

theorem applyBalanceOp_balance_add (env : Env) (w : Wallet) (amount : Int)
    (now : Nat) :
    (applyBalanceOp env w amount false now).balance = w.balance + amount := rfl

theorem find?_cons_pos (p : Wallet → Bool) (a : Wallet) (l : List Wallet)
    (h : p a = true) : (a :: l).find? p = some a :=
  List.find?_cons_of_pos l h

theorem find?_cons_neg (p : Wallet → Bool) (a : Wallet) (l : List Wallet)
    (h : ¬ p a = true) : (a :: l).find? p = l.find? p :=
  List.find?_cons_of_neg l (by simpa using h)

theorem find?_id_replace (l : List Wallet) (i : Nat) (w w2 : Wallet)
    (hw2 : w2.id = i)
    (hfind : l.find? (fun x => x.id == i) = some w) :
    (l.map fun x => if x.id == i then w2 else x).find?
      (fun x => x.id == i) = some w2 := by
  induction l with
  | nil => simp at hfind
  | cons a l ih =>
    by_cases ha : (a.id == i) = true
    · simp only [List.map_cons, if_pos ha]
      exact find?_cons_pos _ _ _ (by simp [hw2])
    · rw [find?_cons_neg _ _ _ ha] at hfind
      simp only [List.map_cons, if_neg ha]
      rw [find?_cons_neg _ _ _ ha]
      exact ih hfind

theorem find?_id_replace_ne (l : List Wallet) (i j : Nat) (w2 : Wallet)
    (hne : j ≠ i) (hw2 : w2.id = i) :
    (l.map fun x => if x.id == i then w2 else x).find?
      (fun x => x.id == j) = l.find? (fun x => x.id == j) := by
  induction l with
  | nil => rfl
  | cons a l ih =>
    by_cases ha : (a.id == i) = true
    · have haj : ¬ ((a.id == j) = true) := by
        simp only [beq_iff_eq] at ha ⊢
        omega
      simp only [List.map_cons, if_pos ha]
      rw [find?_cons_neg (fun x => x.id == j) w2 _
          (by simp only [beq_iff_eq, hw2]; omega),
        find?_cons_neg _ _ _ haj]
      exact ih
    · simp only [List.map_cons, if_neg ha]
      by_cases haj : (a.id == j) = true
      · rw [find?_cons_pos _ _ _ haj, find?_cons_pos _ _ _ haj]
      · rw [find?_cons_neg _ _ _ haj, find?_cons_neg _ _ _ haj]
        exact ih

theorem find?_map_of_pointwise (l : List Wallet) (f : Wallet → Wallet)
    (p : Wallet → Bool)
    (hp : ∀ x ∈ l, p (f x) = p x)
    (hfix : ∀ x ∈ l, p x = true → f x = x) :
    (l.map f).find? p = l.find? p := by
  induction l with
  | nil => rfl
  | cons a l ih =>
    by_cases hb : p a = true
    · rw [List.map_cons,
        find?_cons_pos p (f a) _
          (by rw [hp a (List.mem_cons_self a l)]; exact hb),
        find?_cons_pos p a _ hb,
        hfix a (List.mem_cons_self a l) hb]
    · rw [List.map_cons,
        find?_cons_neg p (f a) _
          (by rw [hp a (List.mem_cons_self a l)]; exact hb),
        find?_cons_neg p a _ hb]
      exact ih (fun x hx => hp x (List.mem_cons_of_mem a hx))
        (fun x hx => hfix x (List.mem_cons_of_mem a hx))

theorem eq_of_mem_id_unique (l : List Wallet) (i : Nat) (w : Wallet)
    (huniq : l.Pairwise fun x y => x.id ≠ y.id)
    (hfind : l.find? (fun x => x.id == i) = some w) :
    ∀ x ∈ l, x.id = i → x = w := by
  induction l with
  | nil => simp at hfind
  | cons a l ih =>
    rw [List.pairwise_cons] at huniq
    obtain ⟨hha, htail⟩ := huniq
    intro x hx hxid
    by_cases ha : (a.id == i) = true
    · rw [find?_cons_pos _ _ _ ha] at hfind
      injection hfind with h
      subst h
      rcases List.mem_cons.mp hx with h | hx2
      · exact h
      · exfalso
        apply hha x hx2
        simp only [beq_iff_eq] at ha
        rw [ha, hxid]
    · rw [find?_cons_neg _ _ _ ha] at hfind
      rcases List.mem_cons.mp hx with h | hx2
      · exfalso
        apply ha
        rw [h] at hxid
        simp [hxid]
      · exact ih htail hfind x hx2 hxid

theorem find?_id_of_mem_unique (l : List Wallet) (w : Wallet)
    (huniq : l.Pairwise fun x y => x.id ≠ y.id) (hmem : w ∈ l) :
    l.find? (fun x => x.id == w.id) = some w := by
  induction l with
  | nil => simp at hmem
  | cons a l ih =>
    rw [List.pairwise_cons] at huniq
    obtain ⟨hha, htail⟩ := huniq
    rcases List.mem_cons.mp hmem with h | hmem2
    · rw [h]
      exact find?_cons_pos _ _ _ (by simp)
    · rw [find?_cons_neg _ _ _ (by simp [hha w hmem2])]
      exact ih htail hmem2

theorem find?_id_of_find?_triple (l : List Wallet) (wid uid : Nat)
    (w : Wallet)
    (huniq : l.Pairwise fun x y => x.id ≠ y.id)
    (hfind : l.find? (fun x =>
        x.id == wid && x.user == uid &&
          x.status == WalletStatus.active) = some w) :
    l.find? (fun x => x.id == wid) = some w := by
  have hmem := List.mem_of_find?_eq_some hfind
  have hpred := List.find?_some hfind
  simp only [Bool.and_eq_true, beq_iff_eq] at hpred
  have hwid : w.id = wid := hpred.1.1
  rw [← hwid]
  exact find?_id_of_mem_unique l w huniq hmem

theorem updateBalance_txs (env : Env) (db : Db) (walletId : Nat)
    (amount : Int) (subtract : Bool) (now : Nat) (db2 : Db)
    (h : updateBalance env db walletId amount subtract now =
      Except.ok db2) : db2.txs = db.txs := by
  unfold updateBalance at h
  split at h
  · exact absurd h (by simp)
  · split at h
    · exact absurd h (by simp)
    · injection h with h2
      rw [← h2]

theorem sendTxOf_fields (env : Env) (db : Db) (p : SendParams)
    (eff : SendEffects) (w : Wallet) (sk : String) :
    (sendTxOf env db p eff w sk).txId = eff.txId ∧
      (sendTxOf env db p eff w sk).status = TxStatus.confirmed ∧
      (sendTxOf env db p eff w sk).confirmations = 6 ∧
      (sendTxOf env db p eff w sk).confirmedAt = some eff.now :=
  ⟨rfl, rfl, rfl, rfl⟩

theorem recvTxOf_fields (env : Env) (db1 : Db) (p : SendParams)
    (eff : SendEffects) (w rw : Wallet) :
    (recvTxOf env db1 p eff w rw).txId = eff.txId ++ "-receive" ∧
      (recvTxOf env db1 p eff w rw).status = TxStatus.confirmed ∧
      (recvTxOf env db1 p eff w rw).confirmations = 6 ∧
      (recvTxOf env db1 p eff w rw).confirmedAt = some eff.now :=
  ⟨rfl, rfl, rfl, rfl⟩

theorem recvTxOf_txs_only (env : Env) (d1 d2 : Db) (p : SendParams)
    (eff : SendEffects) (w rw : Wallet) (h : d1.txs = d2.txs) :
    recvTxOf env d1 p eff w rw = recvTxOf env d2 p eff w rw := by
  simp [recvTxOf, generateChainHash, h]

theorem find?_addr_replace (l : List Wallet) (i : Nat) (w w2 : Wallet)
    (a : String)
    (huniq : l.Pairwise fun x y => x.id ≠ y.id)
    (hfind : l.find? (fun x => x.id == i) = some w)
    (hw2addr : w2.publicAddress = w.publicAddress)
    (haddr : w.publicAddress ≠ a) :
    (l.map fun x => if x.id == i then w2 else x).find?
      (fun x => x.publicAddress == a) =
      l.find? (fun x => x.publicAddress == a) := by
  apply find?_map_of_pointwise
  · intro x hx
    by_cases hxi : (x.id == i) = true
    · have hxw : x = w :=
        eq_of_mem_id_unique _ _ _ huniq hfind x hx (by simpa using hxi)
      subst hxw
      have hwi : x.id = i := by simpa using hxi
      simp [hwi, hw2addr]
    · simp [hxi]
  · intro x hx hpx
    by_cases hxi : (x.id == i) = true
    · have hxw : x = w :=
        eq_of_mem_id_unique _ _ _ huniq hfind x hx (by simpa using hxi)
      rw [hxw] at hpx
      exact absurd (by simpa using hpx) haddr
    · simp [hxi]

/-- Full characterization of a successful send when the destination address
belongs to no wallet in the system: the send record is appended, the sender
is debited by amount plus the 10000-satoshi fee, and nothing else
changes. -/
theorem createTransaction_success_foreign (env : Env) (writeOk : Nat → Bool)
    (db : Db) (p : SendParams) (eff : SendEffects) (w : Wallet) (sk : String)
    (huniq : db.wallets.Pairwise fun a b => a.id ≠ b.id)
    (hfind : findActiveWallet db p.walletId p.userId = some w)
    (haddr : env.addrValid p.toAddress = true)
    (hself : w.publicAddress ≠ p.toAddress)
    (hbal : ¬ w.balance < p.amount + 10000)
    (hamt : ¬ p.amount < 1)
    (hkey : signingKeyOf env w p.privateKey = Except.ok sk)
    (hwr : ∀ i, writeOk i = true)
    (hrec : getWalletByAddress db p.toAddress = none) :
    createTransaction env writeOk db p eff =
      (Except.ok { transaction := sendTxOf env db p eff w sk
                   newBalance := w.balance - (p.amount + 10000) },
       { wallets := db.wallets.map fun x =>
           if x.id == p.walletId then
             applyBalanceOp env w (p.amount + 10000) true eff.now
           else x
         txs := db.txs ++ [sendTxOf env db p eff w sk] }) := by
  have hfind2 : db.wallets.find? (fun x =>
      x.id == p.walletId && x.user == p.userId &&
        x.status == WalletStatus.active) = some w := hfind
  have hid : db.wallets.find? (fun x => x.id == p.walletId) = some w :=
    find?_id_of_find?_triple _ _ _ _ huniq hfind2
  have hself2 : (w.publicAddress == p.toAddress) = false := by simp [hself]
  have hupd : updateBalance env
      { db with txs := db.txs ++ [sendTxOf env db p eff w sk] }
      p.walletId (p.amount + 10000) true eff.now =
      Except.ok
        { wallets := db.wallets.map fun x =>
            if x.id == p.walletId then
              applyBalanceOp env w (p.amount + 10000) true eff.now
            else x
          txs := db.txs ++ [sendTxOf env db p eff w sk] } := by
    unfold updateBalance findWalletById
    rw [show ({ db with txs := db.txs ++ [sendTxOf env db p eff w sk] } :
        Db).wallets = db.wallets from rfl, hid]
    simp [hbal]
  have hrec2 : getWalletByAddress
      { wallets := db.wallets.map fun x =>
          if x.id == p.walletId then
            applyBalanceOp env w (p.amount + 10000) true eff.now
          else x
        txs := db.txs ++ [sendTxOf env db p eff w sk] } p.toAddress = none := by
    show (db.wallets.map fun x =>
        if x.id == p.walletId then
          applyBalanceOp env w (p.amount + 10000) true eff.now
        else x).find? (fun x => x.publicAddress == p.toAddress) = none
    rw [find?_addr_replace db.wallets p.walletId w _ p.toAddress huniq hid
      (applyBalanceOp_publicAddress env w (p.amount + 10000) true eff.now)
      hself]
    exact hrec
  unfold createTransaction
  simp only [hfind, haddr, hself2, hkey, hwr, if_neg hbal, hamt,
    Bool.not_true, Bool.false_eq_true, if_false, ite_false, ite_true,
    Bool.not_false, if_true, hupd, hrec2]

/-- Full characterization of a successful send when the destination address
belongs to a wallet known to the system: the send and mirrored receive
records are appended, the sender is debited by amount plus the
10000-satoshi fee, and the recipient is credited by the amount. -/
theorem createTransaction_success_internal (env : Env) (writeOk : Nat → Bool)
    (db : Db) (p : SendParams) (eff : SendEffects) (w r : Wallet)
    (sk : String)
    (huniq : db.wallets.Pairwise fun a b => a.id ≠ b.id)
    (hfind : findActiveWallet db p.walletId p.userId = some w)
    (haddr : env.addrValid p.toAddress = true)
    (hself : w.publicAddress ≠ p.toAddress)
    (hbal : ¬ w.balance < p.amount + 10000)
    (hamt : ¬ p.amount < 1)
    (hkey : signingKeyOf env w p.privateKey = Except.ok sk)
    (hwr : ∀ i, writeOk i = true)
    (hrec : getWalletByAddress db p.toAddress = some r) :
    createTransaction env writeOk db p eff =
      (Except.ok { transaction := sendTxOf env db p eff w sk
                   newBalance := w.balance - (p.amount + 10000) },
       { wallets := (db.wallets.map fun x =>
             if x.id == p.walletId then
               applyBalanceOp env w (p.amount + 10000) true eff.now
             else x).map fun x =>
             if x.id == r.id then applyBalanceOp env r p.amount false eff.now
             else x
         txs := db.txs ++ [sendTxOf env db p eff w sk,
           recvTxOf env
             { db with txs := db.txs ++ [sendTxOf env db p eff w sk] }
             p eff w r] }) := by
  have hfind2 : db.wallets.find? (fun x =>
      x.id == p.walletId && x.user == p.userId &&
        x.status == WalletStatus.active) = some w := hfind
  have hid : db.wallets.find? (fun x => x.id == p.walletId) = some w :=
    find?_id_of_find?_triple _ _ _ _ huniq hfind2
  have hself2 : (w.publicAddress == p.toAddress) = false := by simp [hself]
  have hrec2 : db.wallets.find? (fun x => x.publicAddress == p.toAddress) =
      some r := hrec
  have hmemr : r ∈ db.wallets := List.mem_of_find?_eq_some hrec2
  have hraddr : r.publicAddress = p.toAddress := by
    simpa using List.find?_some hrec2
  have hrid : r.id ≠ p.walletId := by
    intro h
    have : r = w := eq_of_mem_id_unique _ _ _ huniq hid r hmemr h
    rw [this] at hraddr
    exact hself hraddr
  have hidr : db.wallets.find? (fun x => x.id == r.id) = some r :=
    find?_id_of_mem_unique _ _ huniq hmemr
  have hupd : updateBalance env
      { db with txs := db.txs ++ [sendTxOf env db p eff w sk] }
      p.walletId (p.amount + 10000) true eff.now =
      Except.ok
        { wallets := db.wallets.map fun x =>
            if x.id == p.walletId then
              applyBalanceOp env w (p.amount + 10000) true eff.now
            else x
          txs := db.txs ++ [sendTxOf env db p eff w sk] } := by
    unfold updateBalance findWalletById
    rw [show ({ db with txs := db.txs ++ [sendTxOf env db p eff w sk] } :
        Db).wallets = db.wallets from rfl, hid]
    simp [hbal]
  have hrec3 : getWalletByAddress
      { wallets := db.wallets.map fun x =>
          if x.id == p.walletId then
            applyBalanceOp env w (p.amount + 10000) true eff.now
          else x
        txs := db.txs ++ [sendTxOf env db p eff w sk] } p.toAddress =
      some r := by
    show (db.wallets.map fun x =>
        if x.id == p.walletId then
          applyBalanceOp env w (p.amount + 10000) true eff.now
        else x).find? (fun x => x.publicAddress == p.toAddress) = some r
    rw [find?_addr_replace db.wallets p.walletId w _ p.toAddress huniq hid
      (applyBalanceOp_publicAddress env w (p.amount + 10000) true eff.now)
      hself]
    exact hrec2
  have hwid : w.id = p.walletId := by simpa using List.find?_some hid
  have hidr2 : (db.wallets.map fun x =>
      if x.id == p.walletId then
        applyBalanceOp env w (p.amount + 10000) true eff.now
      else x).find? (fun x => x.id == r.id) = some r := by
    rw [find?_id_replace_ne db.wallets p.walletId r.id _ hrid
      ((applyBalanceOp_id env w (p.amount + 10000) true eff.now).trans hwid)]
    exact hidr
  unfold createTransaction
  simp only [hfind, haddr, hself2, hkey, hwr, if_neg hbal, hamt,
    Bool.not_true, Bool.false_eq_true, if_false, ite_false, ite_true,
    Bool.not_false, if_true, hupd, hrec3]
  rw [recvTxOf_txs_only env
    { wallets := db.wallets.map fun x =>
        if x.id == p.walletId then
          applyBalanceOp env w (p.amount + 10000) true eff.now
        else x
      txs := db.txs ++ [sendTxOf env db p eff w sk] }
    { db with txs := db.txs ++ [sendTxOf env db p eff w sk] }
    p eff w r rfl]
  unfold updateBalance findWalletById
  simp only [hidr2]
  simp

/-- C3.  A successful send of an amount with sufficient balance debits the
sender by exactly amount + 10000 (the fixed fee), returns a confirmed
transaction with that new balance, and, when the destination address
belongs to a wallet in the system, credits that recipient by exactly the
amount. -/
theorem send_balance_conservation (env : Env) (writeOk : Nat → Bool)
    (db : Db) (p : SendParams) (eff : SendEffects) (w : Wallet) (sk : String)
    (huniq : db.wallets.Pairwise fun a b => a.id ≠ b.id)
    (hfind : findActiveWallet db p.walletId p.userId = some w)
    (haddr : env.addrValid p.toAddress = true)
    (hself : w.publicAddress ≠ p.toAddress)
    (hbal : ¬ w.balance < p.amount + 10000)
    (hamt : ¬ p.amount < 1)
    (hkey : signingKeyOf env w p.privateKey = Except.ok sk)
    (hwr : ∀ i, writeOk i = true) :
    ∃ res db2,
      createTransaction env writeOk db p eff = (Except.ok res, db2) ∧
        res.transaction.status = TxStatus.confirmed ∧
        res.newBalance = w.balance - (p.amount + 10000) ∧
        walletBalance db2 p.walletId =
          some (w.balance - (p.amount + 10000)) ∧
        (∀ r : Wallet, getWalletByAddress db p.toAddress = some r →
          walletBalance db2 r.id = some (r.balance + p.amount)) := by
  have hfind2 : db.wallets.find? (fun x =>
      x.id == p.walletId && x.user == p.userId &&
        x.status == WalletStatus.active) = some w := hfind
  have hid : db.wallets.find? (fun x => x.id == p.walletId) = some w :=
    find?_id_of_find?_triple _ _ _ _ huniq hfind2
  have hwid : w.id = p.walletId := by simpa using List.find?_some hid
  have hdebid : (applyBalanceOp env w (p.amount + 10000) true eff.now).id =
      p.walletId :=
    (applyBalanceOp_id env w (p.amount + 10000) true eff.now).trans hwid
  cases hrec : getWalletByAddress db p.toAddress with
  | none =>
    refine ⟨_, _,
      createTransaction_success_foreign env writeOk db p eff w sk huniq
        hfind haddr hself hbal hamt hkey hwr hrec, rfl, rfl, ?_, ?_⟩
    · simp only [walletBalance, findWalletById]
      rw [find?_id_replace db.wallets p.walletId w _ hdebid hid]
      simp [applyBalanceOp_balance_sub]
    · intro r hr
      cases hr
  | some r =>
    have hrec2 : db.wallets.find? (fun x => x.publicAddress == p.toAddress) =
        some r := hrec
    have hmemr : r ∈ db.wallets := List.mem_of_find?_eq_some hrec2
    have hraddr : r.publicAddress = p.toAddress := by
      simpa using List.find?_some hrec2
    have hrid : r.id ≠ p.walletId := by
      intro h
      have hrw : r = w := eq_of_mem_id_unique _ _ _ huniq hid r hmemr h
      rw [hrw] at hraddr
      exact hself hraddr
    have hidr : db.wallets.find? (fun x => x.id == r.id) = some r :=
      find?_id_of_mem_unique _ _ huniq hmemr
    have hcredid : (applyBalanceOp env r p.amount false eff.now).id = r.id :=
      applyBalanceOp_id env r p.amount false eff.now
    refine ⟨_, _,
      createTransaction_success_internal env writeOk db p eff w r sk huniq
        hfind haddr hself hbal hamt hkey hwr hrec, rfl, rfl, ?_, ?_⟩
    · simp only [walletBalance, findWalletById]
      rw [find?_id_replace_ne _ r.id p.walletId _ (fun h => hrid h.symm)
        hcredid]
      rw [find?_id_replace db.wallets p.walletId w _ hdebid hid]
      simp [applyBalanceOp_balance_sub]
    · intro r2 hr2
      injection hr2 with h
      subst h
      simp only [walletBalance, findWalletById]
      rw [find?_id_replace _ r.id r _ hcredid]
      · simp [applyBalanceOp_balance_add]
      · rw [find?_id_replace_ne db.wallets p.walletId r.id _ hrid hdebid]
        exact hidr

/-- C3 witness: the concrete hot wallet starting at 100000000 satoshis
sends 50000 to the concrete recipient address; the sender ends at
99940000 = 100000000 - 50000 - 10000 with a confirmed transaction, and the
recipient is credited by 50000. -/
theorem send_balance_conservation_witness :
    cWallet.balance - (cParams.amount + 10000) = 99940000 ∧
      ∃ res db2,
        createTransaction cEnv (fun _ => true) cDb cParams cEff =
            (Except.ok res, db2) ∧
          res.transaction.status = TxStatus.confirmed ∧
          res.newBalance = cWallet.balance - (cParams.amount + 10000) ∧
          walletBalance db2 cParams.walletId =
            some (cWallet.balance - (cParams.amount + 10000)) ∧
          (∀ r : Wallet, getWalletByAddress cDb cParams.toAddress = some r →
            walletBalance db2 r.id = some (r.balance + cParams.amount)) :=
  ⟨by decide,
    send_balance_conservation cEnv (fun _ => true) cDb cParams cEff cWallet
      "k0" (by decide) (by decide) rfl (by decide) (by decide) (by decide)
      rfl (fun _ => rfl)⟩

/-- C5.  A send from a cold wallet whose caller-supplied private key does
not derive the wallet address fails with the invalid-private-key error and
leaves the database unchanged: no balance change and no transaction record
created. -/
theorem cold_wallet_wrong_key_rejected (env : Env) (writeOk : Nat → Bool)
    (db : Db) (p : SendParams) (eff : SendEffects) (w : Wallet) (pk : String)
    (hfind : findActiveWallet db p.walletId p.userId = some w)
    (haddr : env.addrValid p.toAddress = true)
    (hself : w.publicAddress ≠ p.toAddress)
    (hbal : ¬ w.balance < p.amount + 10000)
    (hcold : w.storageType = StorageType.cold)
    (hpk : p.privateKey = some pk)
    (hbad : validateKeyPair pk w.publicAddress = false) :
    createTransaction env writeOk db p eff =
      (Except.error "Invalid private key for this wallet", db) := by
  have hself2 : (w.publicAddress == p.toAddress) = false := by simp [hself]
  have hkey : signingKeyOf env w p.privateKey =
      Except.error "Invalid private key for this wallet" := by
    unfold signingKeyOf
    rw [hcold, hpk]
    simp [hbad]
  unfold createTransaction
  simp only [hfind, haddr, hself2, hkey, if_neg hbal, Bool.not_true,
    Bool.false_eq_true, if_false, ite_false, ite_true]

/-- C5 witness: the concrete cold wallet rejects the wrong key and the
concrete database is returned unchanged. -/
theorem cold_wallet_wrong_key_rejected_witness :
    createTransaction cEnv (fun _ => true) cDbCold cParamsCold cEff =
      (Except.error "Invalid private key for this wallet", cDbCold) :=
  cold_wallet_wrong_key_rejected cEnv (fun _ => true) cDbCold cParamsCold
    cEff cColdWallet "wrongkey" (by decide) rfl (by decide) (by decide) rfl
    rfl (by decide)

theorem string_ne_append_receive (s : String) : s ≠ s ++ "-receive" := by
  intro h
  have h2 := congrArg String.length h
  rw [String.length_append] at h2
  have h3 : "-receive".length = 8 := rfl
  omega

/-- C4.  The send sequence is not atomic: with a storage layer that fails
the mirrored receive-record write (write number 2), the call returns
StorageFailure, yet the send record is already persisted and the sender is
already debited from 100000000 down to 99940000, while the recipient was
never credited — a user-visible partial transaction, since the code runs
four sequential awaits with no transaction scope or rollback. -/
theorem send_not_atomic_on_receive_failure :
    (createTransaction cEnv (fun i => i != 2) cDb cParams cEff).1 =
        Except.error "StorageFailure" ∧
      (createTransaction cEnv (fun i => i != 2) cDb cParams
          cEff).2.txs.length = cDb.txs.length + 1 ∧
      walletBalance
          (createTransaction cEnv (fun i => i != 2) cDb cParams cEff).2 1 =
        some 99940000 ∧
      walletBalance cDb 1 = some 100000000 ∧
      walletBalance
          (createTransaction cEnv (fun i => i != 2) cDb cParams cEff).2 2 =
        some 100000000 := by
  decide

/-- C9 counterexample.  In the concrete successful send to a known
recipient wallet, the mirrored receive record does not get a freshly drawn
256-bit id: its id is the send id with the receive suffix appended, a
72-character string that is not a 64-character hex encoding of a 256-bit
value. -/
theorem receive_txid_counterexample :
    ((createTransaction cEnv (fun _ => true) cDb cParams cEff).2.txs.map
        Transaction.txId) = [cTxId64, cTxId64 ++ "-receive"] ∧
      isHex64 cTxId64 = true ∧
      isHex64 (cTxId64 ++ "-receive") = false := by
  decide

/-- C9 (amended).  A successful send to a known recipient appends exactly
two records: the send record carries the freshly drawn id, and the mirrored
receive record carries that id with a receive suffix appended (a derived
id, not a second fresh 256-bit draw); the two are distinct, and global
uniqueness of ids is preserved provided the drawn id and its suffixed form
are fresh with respect to the stored transactions. -/
theorem send_txids_unique (env : Env) (writeOk : Nat → Bool) (db : Db)
    (p : SendParams) (eff : SendEffects) (w r : Wallet) (sk : String)
    (huniq : db.wallets.Pairwise fun a b => a.id ≠ b.id)
    (hfind : findActiveWallet db p.walletId p.userId = some w)
    (haddr : env.addrValid p.toAddress = true)
    (hself : w.publicAddress ≠ p.toAddress)
    (hbal : ¬ w.balance < p.amount + 10000)
    (hamt : ¬ p.amount < 1)
    (hkey : signingKeyOf env w p.privateKey = Except.ok sk)
    (hwr : ∀ i, writeOk i = true)
    (hrec : getWalletByAddress db p.toAddress = some r)
    (hnodup : (db.txs.map Transaction.txId).Nodup)
    (hfresh1 : ∀ t ∈ db.txs, t.txId ≠ eff.txId)
    (hfresh2 : ∀ t ∈ db.txs, t.txId ≠ eff.txId ++ "-receive") :
    ((createTransaction env writeOk db p eff).2.txs.map Transaction.txId =
        db.txs.map Transaction.txId ++
          [eff.txId, eff.txId ++ "-receive"]) ∧
      ((createTransaction env writeOk db p eff).2.txs.map
        Transaction.txId).Nodup := by
  rw [createTransaction_success_internal env writeOk db p eff w r sk huniq
    hfind haddr hself hbal hamt hkey hwr hrec]
  have hids : ((db.txs ++ [sendTxOf env db p eff w sk,
      recvTxOf env { db with txs := db.txs ++ [sendTxOf env db p eff w sk] }
        p eff w r]).map Transaction.txId) =
      db.txs.map Transaction.txId ++ [eff.txId, eff.txId ++ "-receive"] := by
    simp only [List.map_append, List.map_cons, List.map_nil]
    rfl
  refine ⟨hids, ?_⟩
  show ((db.txs ++ [sendTxOf env db p eff w sk,
      recvTxOf env { db with txs := db.txs ++ [sendTxOf env db p eff w sk] }
        p eff w r]).map Transaction.txId).Nodup
  rw [hids, List.nodup_append]
  refine ⟨hnodup, by simp [string_ne_append_receive eff.txId], ?_⟩
  intro x hx hx2
  simp only [List.mem_map] at hx
  obtain ⟨t, ht, rfl⟩ := hx
  simp only [List.mem_cons, List.mem_singleton, List.not_mem_nil,
    or_false] at hx2
  rcases hx2 with h | h
  · exact hfresh1 t ht h
  · exact hfresh2 t ht h

/-- C9 witness: the amended id theorem applied to the concrete send into
the concrete two-wallet database with no prior transactions. -/
theorem send_txids_unique_witness :
    ((createTransaction cEnv (fun _ => true) cDb cParams cEff).2.txs.map
        Transaction.txId =
        cDb.txs.map Transaction.txId ++
          [cEff.txId, cEff.txId ++ "-receive"]) ∧
      ((createTransaction cEnv (fun _ => true) cDb cParams cEff).2.txs.map
        Transaction.txId).Nodup :=
  send_txids_unique cEnv (fun _ => true) cDb cParams cEff cWallet cRecipient
    "k0" (by decide) (by decide) rfl (by decide) (by decide) (by decide) rfl
    (fun _ => rfl) (by decide) (by decide) (by decide) (by decide)

/-- C10.  Whatever the inputs and whatever subset of the storage writes
succeeds, every transaction record the send operation persists is created
directly in the terminal confirmed state with 6 confirmations and a set
confirmedAt timestamp; no pending record is ever written. -/
theorem send_persists_only_confirmed (env : Env) (writeOk : Nat → Bool)
    (db : Db) (p : SendParams) (eff : SendEffects) :
    ∃ l, (createTransaction env writeOk db p eff).2.txs = db.txs ++ l ∧
      ∀ t ∈ l, t.status = TxStatus.confirmed ∧ t.confirmations = 6 ∧
        t.confirmedAt = some eff.now := by
  simp only [createTransaction]
  split
  · exact ⟨[], by simp, by simp⟩
  · rename_i w hfindEq
    split
    · exact ⟨[], by simp, by simp⟩
    · split
      · exact ⟨[], by simp, by simp⟩
      · split
        · exact ⟨[], by simp, by simp⟩
        · split
          · exact ⟨[], by simp, by simp⟩
          · rename_i sk hkeyEq
            split
            · exact ⟨[], by simp, by simp⟩
            · split
              · exact ⟨[], by simp, by simp⟩
              · split
                · exact ⟨[sendTxOf env db p eff w sk], by simp,
                    by intro t ht
                       rw [List.mem_singleton] at ht
                       subst ht
                       exact ⟨rfl, rfl, rfl⟩⟩
                · split
                  · exact ⟨[sendTxOf env db p eff w sk], by simp,
                      by intro t ht
                         rw [List.mem_singleton] at ht
                         subst ht
                         exact ⟨rfl, rfl, rfl⟩⟩
                  · rename_i d hu1
                    split
                    · exact ⟨[sendTxOf env db p eff w sk],
                        by simp [updateBalance_txs _ _ _ _ _ _ _ hu1],
                        by intro t ht
                           rw [List.mem_singleton] at ht
                           subst ht
                           exact ⟨rfl, rfl, rfl⟩⟩
                    · rename_i r hgaEq
                      split
                      · exact ⟨[sendTxOf env db p eff w sk],
                          by simp [updateBalance_txs _ _ _ _ _ _ _ hu1],
                          by intro t ht
                             rw [List.mem_singleton] at ht
                             subst ht
                             exact ⟨rfl, rfl, rfl⟩⟩
                      · split
                        · exact ⟨[sendTxOf env db p eff w sk,
                            recvTxOf env d p eff w r],
                            by simp [updateBalance_txs _ _ _ _ _ _ _ hu1],
                            by intro t ht
                               simp only [List.mem_cons, List.mem_singleton,
                                 List.not_mem_nil, or_false] at ht
                               rcases ht with rfl | rfl
                               · exact ⟨rfl, rfl, rfl⟩
                               · exact ⟨rfl, rfl, rfl⟩⟩
                        · split
                          · exact ⟨[sendTxOf env db p eff w sk,
                              recvTxOf env d p eff w r],
                              by simp [updateBalance_txs _ _ _ _ _ _ _ hu1],
                              by intro t ht
                                 simp only [List.mem_cons,
                                   List.mem_singleton, List.not_mem_nil,
                                   or_false] at ht
                                 rcases ht with rfl | rfl
                                 · exact ⟨rfl, rfl, rfl⟩
                                 · exact ⟨rfl, rfl, rfl⟩⟩
                          · rename_i d2 hu2
                            exact ⟨[sendTxOf env db p eff w sk,
                              recvTxOf env d p eff w r],
                              by simp [updateBalance_txs _ _ _ _ _ _ _ hu2,
                                updateBalance_txs _ _ _ _ _ _ _ hu1],
                              by intro t ht
                                 simp only [List.mem_cons,
                                   List.mem_singleton, List.not_mem_nil,
                                   or_false] at ht
                                 rcases ht with rfl | rfl
                                 · exact ⟨rfl, rfl, rfl⟩
                                 · exact ⟨rfl, rfl, rfl⟩⟩

end BitVault
